import Mathlib

/-!
# Verification of the rift protocol / edit-reconciliation core

Shallow embedding of the parts of `rift-engine` that the specification's
claims are about:

* `rift/server/selection.py` — `RangeSet` (`add`, `normalize`, `apply_edit`)
* `rift/server/helper.py` — `Helper._worker_core` retry/timeout loop and
  `Helper.on_change`
* `rift/rpc/jsonrpc.py` — `RpcServer` message handling and lifecycle
* `rift/util/TextStream.py` — buffered text channel, `split_once`,
  cancellation of reads

The `rift.lsp.types` module (`Position`, `Range`,
`TextDocumentContentChangeEvent`) is not part of the sources; following the
specification ("Position/Range: pairs with a linear order; ranges are
half-open ...; the core only consumes comparison and arithmetic operations
(containment, union, shift-by-delta)") positions are modelled as integer
character offsets.  `Range.__contains__` is modelled as inclusive at both
endpoints: the specification requires `add` to merge *abutting* ranges, which
forces endpoint-inclusive containment in the merge test.
-/

namespace Rift

/-- Modelled from the spec: a `Range` is a pair of positions; positions are
abstracted as integer character offsets (the missing `rift.lsp.types` module).
`start`/`stop` are the source's `start`/`end` fields (`end` is a Lean
keyword). -/
structure Range where
  start : Int
  stop : Int
deriving DecidableEq, Repr

namespace Range

/-- Modelled from the spec: `Position in Range` (`Range.__contains__`),
inclusive at both endpoints so that abutting ranges test as touching. -/
def memPos (p : Int) (r : Range) : Prop :=
  r.start ≤ p ∧ p ≤ r.stop

instance (p : Int) (r : Range) : Decidable (memPos p r) := by
  unfold memPos; infer_instance

/-- A well-formed range has its start before its end. -/
def wf (r : Range) : Prop := r.start ≤ r.stop

instance : DecidablePred wf := fun r => by unfold wf; infer_instance

/-- Modelled from the spec: `Range.union` of two ranges is the bounding
range (least start to greatest end). -/
def union2 (a b : Range) : Range :=
  ⟨min a.start b.start, max a.stop b.stop⟩

/-- Modelled from the spec: shift-by-delta (`Range.__add__` with an integer
delta) moves both endpoints. -/
def shift (r : Range) (δ : Int) : Range :=
  ⟨r.start + δ, r.stop + δ⟩

/-- Modelled from the spec: `len(range)` is the number of characters it
covers (end minus start in offset coordinates). -/
def length (r : Range) : Int := r.stop - r.start

/-- The set of positions covered by a range, half-open as the spec states
("ranges are half-open"). -/
def covers (r : Range) (p : Int) : Prop := r.start ≤ p ∧ p < r.stop

instance (r : Range) (p : Int) : Decidable (covers r p) := by
  unfold covers; infer_instance

/-- Two ranges are disjoint and non-abutting (they neither overlap nor
touch): one ends strictly before the other starts. -/
def separated (a b : Range) : Prop := a.stop < b.start ∨ b.stop < a.start

instance (a b : Range) : Decidable (separated a b) := by
  unfold separated; infer_instance

theorem separated_symm {a b : Range} (h : separated a b) : separated b a :=
  h.elim .inr .inl

/-- Range `a` strictly contains `b`: both endpoints of `b` lie strictly inside
`a`, so neither endpoint of `a` is a member of `b`. -/
def strictlyContains (a b : Range) : Prop := a.start < b.start ∧ b.stop < a.stop

instance (a b : Range) : Decidable (strictlyContains a b) := by
  unfold strictlyContains; infer_instance

end Range

/-- The field `RangeSet.ranges` is a Python `set[Range]`; it is modelled as a list of
ranges, iterated in list order (the Python iteration order is unspecified;
all theorems below are stated for an arbitrary list, hence hold for every
iteration order). -/
abbrev RangeSet := List Range

namespace RangeSet

/-- The invariant claimed by the spec for a Provenance Range Set: pairwise
non-overlapping and non-abutting ranges. -/
def invariant (s : RangeSet) : Prop := s.Pairwise Range.separated

instance : DecidablePred invariant := fun s => by
  unfold invariant; infer_instance

/-- The loop of `RangeSet.add`: fold the existing ranges, merging into the
accumulator `acc` every range that contains `acc`'s end or start, and
keeping the others.  Returns the final accumulator and the kept ranges
(source: `selection.py`, lines 34–43). -/
def addLoop (acc : Range) : List Range → Range × List Range
  | [] => (acc, [])
  | r :: rs =>
    if Range.memPos acc.stop r ∨ Range.memPos acc.start r then
      addLoop (Range.union2 acc r) rs
    else
      ((addLoop acc rs).1, r :: (addLoop acc rs).2)

/-- Source `RangeSet.add(range)`: merge `range` with every existing range that the
accumulated range's endpoints fall in, then insert the accumulated range
(source: `selection.py`, lines 34–43). -/
def add (s : RangeSet) (range : Range) : RangeSet :=
  let (a, ks) := addLoop range s
  ks ++ [a]

/-- The `RangeSet` constructor applied to an iterable of ranges: `add` each
in turn (source: `selection.py`, lines 12–20). -/
def ofRanges (l : List Range) : RangeSet :=
  l.foldl add []

/-- The merge test of `add`'s loop: an endpoint of the accumulator lies in
`r`. -/
def mergeCond (acc r : Range) : Prop :=
  Range.memPos acc.stop r ∨ Range.memPos acc.start r

instance (acc r : Range) : Decidable (mergeCond acc r) := by
  unfold mergeCond; infer_instance

end RangeSet

/-- Source `TextDocumentContentChangeEvent`: an edit replacing `range` with `text`;
`range = none` is a whole-document replacement.  Of `text` the range
algebra only consumes the length. -/
structure ContentChange where
  range : Option Range
  text : String
deriving DecidableEq, Repr

/-- The body of `RangeSet.apply_edit`'s loop for one range (source:
`selection.py`, lines 82–91), with `n` the length of the replacement text
and `n - editRange.length` the shift `δ`. -/
def applyEditRange (editRange : Range) (n : Int) (range : Range) : List Range :=
  if editRange.stop ≤ range.start then
    [range.shift (n - editRange.length)]
  else if range.stop ≤ editRange.start then
    [range]
  else
    (if Range.memPos editRange.start range then
      [⟨range.start, editRange.start⟩] else []) ++
    (if Range.memPos editRange.stop range then
      [⟨editRange.start + n, range.stop + (n - editRange.length)⟩] else [])

namespace RangeSet

/-- Source `RangeSet.apply_edit(edit)`: a pure function returning the rebased set;
when the edit has no range (whole-document replace) the receiver itself is
returned unchanged.  The Python code collects the pieces in a `set` and
passes it to the `RangeSet` constructor, which `add`s them one by one
(source: `selection.py`, lines 76–92). -/
def apply_edit (s : RangeSet) (edit : ContentChange) : RangeSet :=
  match edit.range with
  | none => s
  | some er => ofRanges (s.flatMap (applyEditRange er (edit.text.length : Int)))

end RangeSet

/-! ## Edit Reconciliation Session (`rift/server/helper.py`) -/

namespace Helper

/-- Session status (source: `helper.py`, `class Status`). -/
inductive Status
  | running | done | error | accepted | rejected
deriving DecidableEq, Repr

/-- One content change processed by `Helper.on_change` as it affects the
session's provenance ranges (source: `helper.py`, lines 232–241): when the
change's literal text matches a pending confirmation future the future is
resolved and the ranges are untouched; otherwise the code evaluates
`self.ranges.apply_edit(c)` — a pure call whose returned rebased set is
discarded, so the stored ranges keep their previous value in both branches. -/
def onChangeRangesStep (changeFutures : List String) (ranges : RangeSet)
    (c : ContentChange) : RangeSet :=
  if c.text ∈ changeFutures then
    ranges
  else
    (fun _rebased => ranges) (RangeSet.apply_edit ranges c)

/-- Source `Helper.on_change` over the list of content changes of one notification
(the loop `for c in changes.contentChanges`), restricted to its effect on
the session's range set. -/
def onChangeRanges (changeFutures : List String) (ranges : RangeSet)
    (changes : List ContentChange) : RangeSet :=
  changes.foldl (onChangeRangesStep changeFutures) ranges

/-- The externally visible outcome of one submission attempt for a delta:
whether the peer reported the edit applied, and whether the confirming
change notification arrived before the 2-time-unit wait timed out. -/
structure Outcome where
  applied : Bool
  confirmed : Bool
deriving DecidableEq, Repr

/-- The retry loop of `Helper._worker_core` for one delta (source:
`helper.py`, lines 173–197), driven by an oracle `o` giving the outcome of
each submission attempt.  Arguments: remaining `attempts` budget and the
index `i` of the next attempt (which equals the number of submissions made
so far).  Returns the total number of `apply_insert_text` submissions and
whether the delta was confirmed (`break`) as opposed to the budget being
exhausted (the code `return`s from the whole worker). -/
def attemptLoop (o : Nat → Outcome) : Nat → Nat → Nat × Bool
  | 0, i => (i, false)
  | a + 1, i =>
    if (o i).applied = false then
      -- "edit failed, retrying": sleep and continue
      attemptLoop o a (i + 1)
    else if (o i).confirmed then
      -- confirmation future resolved in time: break
      (i + 1, true)
    else
      -- `asyncio.TimeoutError`: "timeout waiting for change, retry the edit";
      -- the loop body ends and the `while True` loop submits again
      attemptLoop o a (i + 1)

/-- Observable result of one `_worker_core` run:  which deltas were
confirmed (cursor advanced and range added, in order), how many edit
submissions were made in total, and the delta (if any) whose attempt budget
was exhausted, which makes `_worker_core` return early. -/
structure WorkerRun where
  confirmed : List String
  submissions : Nat
  droppedAt : Option String
deriving DecidableEq, Repr

/-- The delta loop of `Helper._worker_core` (source: `helper.py`, lines
170–202): for each delta run the retry loop with a fresh budget of 10; on
exhaustion (`attempts <= 0`) the code logs an error and returns from the
worker, abandoning all remaining deltas. -/
def runDeltas : List (String × (Nat → Outcome)) → WorkerRun
  | [] => ⟨[], 0, none⟩
  | (d, o) :: rest =>
    let r := attemptLoop o 10 0
    if r.2 then
      let w := runDeltas rest
      ⟨d :: w.confirmed, r.1 + w.submissions, w.droppedAt⟩
    else
      ⟨[], r.1, some d⟩

/-- Source `Helper._worker` around `_worker_core` (source: `helper.py`, lines
142–157): the pure delta loop raises no exception — in particular the
attempts-exhausted path is a plain `return` — so the `else` branch sets the
session status to `done`. -/
def worker (deltas : List (String × (Nat → Outcome))) : Status × WorkerRun :=
  (Status.done, runDeltas deltas)

end Helper

/-! ## Protocol Engine (`rift/rpc/jsonrpc.py`) -/

namespace Rpc

/-- Source `ErrorCode` (source: `jsonrpc.py`, lines 32–77). -/
inductive ErrorCode
  | parse_error | invalid_request | method_not_found | invalid_params
  | internal_error | server_error | server_not_initialized | request_failed
  | server_cancelled | content_modified | request_cancelled
deriving DecidableEq, Repr

/-- Numeric values of the error codes (source: `jsonrpc.py`, lines 42–76). -/
def ErrorCode.code : ErrorCode → Int
  | .parse_error => -32700
  | .invalid_request => -32600
  | .method_not_found => -32601
  | .invalid_params => -32602
  | .internal_error => -32603
  | .server_error => -32000
  | .server_not_initialized => -32002
  | .request_failed => -32803
  | .server_cancelled => -32802
  | .content_modified => -32801
  | .request_cancelled => -32800

/-- Source `RpcServerStatus` (source: `jsonrpc.py`, lines 265–271). -/
inductive RpcServerStatus
  | preinit | running | shutdown
deriving DecidableEq, Repr

/-- Source `InitializationMode` (source: `jsonrpc.py`, lines 256–262). -/
inductive InitializationMode
  | NoInit | ExpectInit | SendInit
deriving DecidableEq, Repr

/-- An inbound JSON-RPC request.  Request ids (`str|int` in the source) are
modelled as naturals; `id = none` marks a notification.  `cancelParams`
models the `params` of a `$/cancelRequest` notification: `some i` when the
params are a dict holding an `id`, `none` otherwise; other methods' raw
params are abstracted by the per-method decode oracle. -/
structure Request where
  method : String
  id : Option Nat
  cancelParams : Option Nat
deriving DecidableEq, Repr

/-- What the engine sends back for one handled message. -/
inductive ResponseMsg
  | resultMsg (id : Option Nat)
  | errorMsg (id : Option Nat) (e : ErrorCode)
deriving DecidableEq, Repr

/-- The mutable `RpcServer` state the claims touch: lifecycle status, init
mode, registered dispatcher methods, ids of in-flight inbound handler tasks
(`their_requests`), and ids of pending outbound request futures
(`my_requests`). -/
structure Server where
  status : RpcServerStatus
  initMode : InitializationMode
  methods : List String
  theirRequests : List Nat
  myRequests : List Nat
deriving DecidableEq, Repr

/-- How a registered handler behaves when dispatched (an oracle per method
name): return normally, raise a `ResponseError`, raise another exception,
or be cancelled. -/
inductive HandlerB
  | ok | raiseResp (e : ErrorCode) | raiseOther | cancelled
deriving DecidableEq, Repr

/-- Source `RpcServer._shutdown` (source: `jsonrpc.py`, lines 577–584): cancels the
in-flight inbound tasks and notification tasks and enters the `shutdown`
status; only the status change is visible to the claims. -/
def shutdownServer (sv : Server) : Server :=
  { sv with status := RpcServerStatus.shutdown }

/-- Outcome of `RpcServer._on_request_core`. -/
inductive CoreOut
  | ok | errResp (e : ErrorCode) | excOther | excCancelled
deriving DecidableEq, Repr

/-- Source `RpcServer._on_request_core` (source: `jsonrpc.py`, lines 666–716),
with `hb` the handler-behaviour oracle and `dec` the per-method
params-decode oracle (`ofdict` succeeding or raising `TypeError`). -/
def onRequestCore (sv : Server) (hb : String → HandlerB) (dec : String → Bool)
    (req : Request) : Server × CoreOut :=
  -- preinit gate
  let gate : Server ⊕ (Server × CoreOut) :=
    if sv.status = RpcServerStatus.preinit then
      match sv.initMode with
      | InitializationMode.ExpectInit =>
        if req.method = "initialize" then
          Sum.inl { sv with status := RpcServerStatus.running }
        else
          Sum.inr (sv, CoreOut.errResp ErrorCode.server_not_initialized)
      | InitializationMode.SendInit =>
        Sum.inr (sv, CoreOut.errResp ErrorCode.server_not_initialized)
      | InitializationMode.NoInit =>
        Sum.inr (sv, CoreOut.errResp ErrorCode.internal_error)
    else
      Sum.inl sv
  match gate with
  | Sum.inr out => out
  | Sum.inl sv =>
    -- shutdown gate
    if sv.status = RpcServerStatus.shutdown then
      if req.method = "shutdown" then
        if "shutdown" ∈ sv.methods then
          (sv, match hb "shutdown" with
            | HandlerB.ok => CoreOut.ok
            | HandlerB.raiseResp e => CoreOut.errResp e
            | HandlerB.raiseOther => CoreOut.excOther
            | HandlerB.cancelled => CoreOut.excCancelled)
        else (sv, CoreOut.ok)
      else (sv, CoreOut.errResp ErrorCode.invalid_request)
    else if req.method = "$/cancelRequest" then
      if req.id ≠ none then (sv, CoreOut.errResp ErrorCode.invalid_request)
      else
        match req.cancelParams with
        | none => (sv, CoreOut.errResp ErrorCode.invalid_params)
        | some _ => (sv, CoreOut.ok)  -- cancel the task if still in-flight
    else if req.method ∉ sv.methods then
      (sv, CoreOut.errResp ErrorCode.method_not_found)
    else if dec req.method = false then
      (sv, CoreOut.errResp ErrorCode.invalid_params)
    else
      (sv, match hb req.method with
        | HandlerB.ok => CoreOut.ok
        | HandlerB.raiseResp e => CoreOut.errResp e
        | HandlerB.raiseOther => CoreOut.excOther
        | HandlerB.cancelled => CoreOut.excCancelled)

/-- Source `RpcServer._on_request` (source: `jsonrpc.py`, lines 630–665): maps the
core outcome to the message sent to the peer.  Only the `CancelledError`
branch and the success branch test `req.is_notification`; the
`ResponseError` and generic-exception branches send unconditionally. -/
def onRequest (sv : Server) (hb : String → HandlerB) (dec : String → Bool)
    (req : Request) : Server × Option ResponseMsg :=
  let (sv', out) := onRequestCore sv hb dec req
  match out with
  | CoreOut.excCancelled =>
    (sv', if req.id = none then none
          else some (ResponseMsg.errorMsg req.id ErrorCode.request_cancelled))
  | CoreOut.errResp e => (sv', some (ResponseMsg.errorMsg req.id e))
  | CoreOut.excOther => (sv', some (ResponseMsg.errorMsg req.id ErrorCode.server_error))
  | CoreOut.ok =>
    (sv', if req.id = none then none else some (ResponseMsg.resultMsg req.id))

/-- Result of `RpcServer._handle_message` on a `Request` message. -/
inductive HandleResult
  | raisedExit
  | raisedInvalidRequest
  | handled (sent : Option ResponseMsg) (sv' : Server)
deriving DecidableEq, Repr

/-- Source `RpcServer._handle_message` for a request message (source: `jsonrpc.py`,
lines 603–628), composed with the spawned `_on_request` task run to
completion (the single-threaded scheduler runs the task after the message
handler returns; on completion it removes itself from `their_requests`,
leaving that table as before).  `exit` raises `ExitNotification`;
`shutdown` calls `_shutdown()` *before* the handler task runs; a request id
already in `their_requests` raises the `invalid_request` `ResponseError`
without sending anything. -/
def handleMessage (sv : Server) (hb : String → HandlerB) (dec : String → Bool)
    (req : Request) : HandleResult :=
  if req.method = "exit" then
    HandleResult.raisedExit
  else
    let sv₁ := if req.method = "shutdown" then shutdownServer sv else sv
    match req.id with
    | some i =>
      if i ∈ sv₁.theirRequests then
        HandleResult.raisedInvalidRequest
      else
        let (sv₂, sent) := onRequest sv₁ hb dec req
        HandleResult.handled sent sv₂
    | none =>
      let (sv₂, sent) := onRequest sv₁ hb dec req
      HandleResult.handled sent sv₂

/-- The exception, if any, escaping one iteration of `serve_forever`'s
message-handling body. -/
inductive LoopExc
  | transportClosedOK | jsonDecodeOrType | exitNotification
  | keyboardInterrupt | transportClosedError | transportError
  | responseError (e : ErrorCode) | otherExc
deriving DecidableEq, Repr

/-- What the serve loop does with an escaped exception. -/
inductive LoopAction
  | returnOK | sendParseErrorAndContinue | reraise
deriving DecidableEq, Repr

/-- The `except` chain of `serve_forever` (source: `jsonrpc.py`, lines
540–567), in source order.  A `ResponseError` matches none of the specific
clauses and falls to the final generic `except Exception` branch, which
logs and re-raises, ending the loop. -/
def serveClassify : LoopExc → LoopAction
  | LoopExc.transportClosedOK => LoopAction.returnOK
  | LoopExc.jsonDecodeOrType => LoopAction.sendParseErrorAndContinue
  | LoopExc.exitNotification => LoopAction.returnOK
  | LoopExc.keyboardInterrupt => LoopAction.returnOK
  | LoopExc.transportClosedError => LoopAction.reraise
  | LoopExc.transportError => LoopAction.reraise
  | LoopExc.responseError _ => LoopAction.reraise
  | LoopExc.otherExc => LoopAction.reraise

/-- The `finally` block of `serve_forever` (source: `jsonrpc.py`, lines
568–575): every still-pending outbound request future receives the escaping
exception; returns the ids of the futures so failed. -/
def serveFinalize (sv : Server) : List Nat :=
  sv.myRequests

end Rpc

/-! ## Buffered Text Channel (`rift/util/TextStream.py`) -/

namespace TextStream

/-- The `TextStream` state the read operations touch: the character buffer,
the eof flag, and whether an `on_cancel` callback was registered at
construction. -/
structure TS where
  buffer : List Char
  eof : Bool
  onCancelRegistered : Bool
deriving DecidableEq, Repr

/-- What happens while a read operation is suspended in `_wait_for_data`:
the producer feeds data, the producer feeds eof, or the suspended operation
is cancelled. -/
inductive WaitEvent
  | feed (s : List Char)
  | feedEof
  | cancelOp
deriving DecidableEq, Repr

/-- Effect of a producer event on the channel state (`feed_data` /
`feed_eof`). -/
def applyEvent (st : TS) (e : WaitEvent) : TS :=
  match e with
  | WaitEvent.feed s => { st with buffer := st.buffer ++ s }
  | WaitEvent.feedEof => { st with eof := true }
  | WaitEvent.cancelOp => st

/-- Python slice `l[:n]`, with the negative-index convention used by
`pop(-len(sep))`. -/
def pyTake (l : List Char) (n : Int) : List Char :=
  if n < 0 then l.take (l.length - (-n).toNat) else l.take n.toNat

/-- Python slice `l[n:]` for the same index convention. -/
def pyDrop (l : List Char) (n : Int) : List Char :=
  if n < 0 then l.drop (l.length - (-n).toNat) else l.drop n.toNat

/-- Source `TextStream.pop(n)` (source: `TextStream.py`, lines 88–98). -/
def pop (st : TS) (n : Int) : List Char × TS :=
  (pyTake st.buffer n, { st with buffer := pyDrop st.buffer n })

/-- Result of running one read operation against a script of wait events. -/
inductive ReadResult
  | ok (s : List Char) (st : TS) (rest : List WaitEvent)
  | cancelled (onCancelInvoked : Bool)
  | eofError
  | stopIteration
  | valueError
  | outOfEvents
deriving DecidableEq, Repr

/-- The `while not self._eof` loop of `read(-1)` (source: `TextStream.py`,
lines 74–78).  A cancellation delivered at the suspension point propagates
out of `read` — there is no `except CancelledError` handler there, so the
registered callback is never invoked on this path. -/
def readNegLoop (st : TS) : List WaitEvent → ReadResult
  | [] =>
    if st.eof then ReadResult.ok st.buffer { st with buffer := [] } []
    else ReadResult.outOfEvents
  | e :: rest =>
    if st.eof then ReadResult.ok st.buffer { st with buffer := [] } (e :: rest)
    else
      match e with
      | WaitEvent.cancelOp => ReadResult.cancelled false
      | _ => readNegLoop (applyEvent st e) rest

/-- Source `TextStream.read(n)` (source: `TextStream.py`, lines 70–81). -/
def read (st : TS) (events : List WaitEvent) (n : Int) : ReadResult :=
  if n = 0 then ReadResult.ok [] st events
  else if n < 0 then readNegLoop st events
  else if st.buffer = [] ∧ st.eof = false then
    match events with
    | [] => ReadResult.outOfEvents
    | WaitEvent.cancelOp :: _ => ReadResult.cancelled false
    | e :: rest =>
      let st' := applyEvent st e
      let (s, st'') := pop st' n
      ReadResult.ok s st'' rest
  else
    let (s, st') := pop st n
    ReadResult.ok s st' events

/-- The accumulation loop of `readexactly(n)` (source: `TextStream.py`,
lines 105–113).  Cancellation at the suspension point propagates without
invoking the callback. -/
def readexactlyLoop (n : Int) (st : TS) : List WaitEvent → ReadResult
  | [] =>
    if (st.buffer.length : Int) < n ∧ st.eof = false then ReadResult.outOfEvents
    else if (st.buffer.length : Int) < n then ReadResult.eofError
    else
      let (s, st') := pop st n
      ReadResult.ok s st' []
  | e :: rest =>
    if (st.buffer.length : Int) < n ∧ st.eof = false then
      match e with
      | WaitEvent.cancelOp => ReadResult.cancelled false
      | _ => readexactlyLoop n (applyEvent st e) rest
    else if (st.buffer.length : Int) < n then ReadResult.eofError
    else
      let (s, st') := pop st n
      ReadResult.ok s st' (e :: rest)

/-- Source `TextStream.readexactly(n)` (source: `TextStream.py`, lines 100–113). -/
def readexactly (st : TS) (events : List WaitEvent) (n : Int) : ReadResult :=
  if n = 0 then ReadResult.ok [] st events
  else if n < 0 then ReadResult.valueError
  else readexactlyLoop n st events

/-- First index at which `sep` occurs in `l` (`str.find`), `none` when it
does not occur. -/
def findSub (l sep : List Char) : Option Nat :=
  match l with
  | [] => none
  | _ :: rest =>
    if sep.isPrefixOf l then some 0
    else (findSub rest sep).map (· + 1)

/-- Python `str.find` as Python reports it: the first index of `sep` in `l`, and
`-1` when it does not occur. -/
def pyFind (l sep : List Char) : Int :=
  match findSub l sep with
  | some i => (i : Int)
  | none => -1

/-- Source `TextStream.readuntil(separator)`'s search loop (source:
`TextStream.py`, lines 163–170): `i = buffer.find(sep); if i >= 0: return
pop(i + len(sep))`.  Cancellation at the suspension point propagates
without invoking the callback. -/
def readuntilLoop (sep : List Char) (st : TS) : List WaitEvent → ReadResult
  | [] =>
    if 0 ≤ pyFind st.buffer sep then
      ReadResult.ok (pop st (pyFind st.buffer sep + sep.length)).1
        (pop st (pyFind st.buffer sep + sep.length)).2 []
    else if st.eof then ReadResult.eofError
    else ReadResult.outOfEvents
  | e :: rest =>
    if 0 ≤ pyFind st.buffer sep then
      ReadResult.ok (pop st (pyFind st.buffer sep + sep.length)).1
        (pop st (pyFind st.buffer sep + sep.length)).2 (e :: rest)
    else if st.eof then ReadResult.eofError
    else
      match e with
      | WaitEvent.cancelOp => ReadResult.cancelled false
      | WaitEvent.feed s => readuntilLoop sep (applyEvent st (WaitEvent.feed s)) rest
      | WaitEvent.feedEof => readuntilLoop sep (applyEvent st WaitEvent.feedEof) rest

/-- Source `TextStream.readuntil(separator)` (source: `TextStream.py`, lines
160–170). -/
def readuntil (st : TS) (events : List WaitEvent) (sep : List Char) : ReadResult :=
  if sep = [] then ReadResult.valueError
  else readuntilLoop sep st events

/-- Source `TextStream.__anext__` (source: `TextStream.py`, lines 118–131).  This
is the only read operation whose `await` is wrapped in
`try/except CancelledError`; on cancellation it invokes the registered
`_on_cancel` callback (when one was given) and re-raises. -/
def anext (st : TS) : List WaitEvent → ReadResult
  | [] =>
    if st.buffer = [] then
      if st.eof then ReadResult.stopIteration else ReadResult.outOfEvents
    else ReadResult.ok st.buffer { st with buffer := [] } []
  | e :: rest =>
    if st.buffer = [] then
      if st.eof then ReadResult.stopIteration
      else
        match e with
        | WaitEvent.cancelOp => ReadResult.cancelled st.onCancelRegistered
        | _ => anext (applyEvent st e) rest
    else ReadResult.ok st.buffer { st with buffer := [] } (e :: rest)

/-- Source `before_worker` of `TextStream.split_once` (source: `TextStream.py`,
lines 176–191): forwards everything up to the first occurrence of `sep`
into the *before* channel (holding back `len(sep)` characters while the
separator has not been seen), closing *before* when the separator is found
or the source hits eof.  Returns the chunks fed to *before*, the source
state, and the unconsumed wait events; `none` when the event script ends
while the worker is still suspended. -/
def beforeWorker (sep : List Char) (st : TS) (events : List WaitEvent) :
    Option (List (List Char) × TS × List WaitEvent) :=
  match findSub st.buffer sep with
  | some i =>
    let (chunk, st') := pop st (i : Int)
    some ([chunk], st', events)
  | none =>
    if st.eof then
      some ([st.buffer], { st with buffer := [] }, events)
    else
      let step :=
        if sep.length < st.buffer.length then pop st (-(sep.length : Int))
        else ([], st)
      match events with
      | [] => none
      | e :: rest =>
        match beforeWorker sep (applyEvent step.2 e) rest with
        | none => none
        | some (outs, st₂, evs) => some (step.1 :: outs, st₂, evs)

/-- Result of `after_worker` of `split_once`: the chunks fed to the *after*
channel before it is closed, a raised exception (`EOFError` from
`readexactly` or the mismatched-separator `RuntimeError`), or a model
artifact for an exhausted event script. -/
inductive AfterResult
  | ok (outs : List (List Char))
  | raised
  | stuck
deriving DecidableEq, Repr

/-- The forwarding loop of `after_worker` (source: `TextStream.py`, lines
204–209). -/
def afterDrain (st : TS) : List WaitEvent → AfterResult
  | [] =>
    if st.eof then AfterResult.ok [st.buffer]
    else AfterResult.stuck
  | e :: rest =>
    if st.eof then AfterResult.ok [st.buffer]
    else
      match afterDrain (applyEvent { st with buffer := [] } e) rest with
      | AfterResult.ok outs => AfterResult.ok (st.buffer :: outs)
      | x => x

/-- Source `after_worker` of `TextStream.split_once` (source: `TextStream.py`,
lines 195–209): runs after `before_worker` completes; if the source is at
eof the *after* channel is closed empty, otherwise the separator is
consumed with `readexactly(len(sep))` and checked, then everything
remaining is forwarded to *after* until eof. -/
def afterWorker (sep : List Char) (st : TS) (events : List WaitEvent) :
    AfterResult :=
  if st.eof = true ∧ st.buffer = [] then AfterResult.ok []
  else
    match readexactly st events (sep.length : Int) with
    | ReadResult.ok s st' evs' =>
      if s = sep then afterDrain st' evs' else AfterResult.raised
    | ReadResult.outOfEvents => AfterResult.stuck
    | _ => AfterResult.raised

/-- Source `TextStream.split_once(sep)` driven by a producer that feeds the given
chunks in order and then closes the source: the two workers run against the
event script, `before_worker` first (the `after_worker` starts by awaiting
the before task).  Returns the chunk sequences fed to the *before* and
*after* channels; both channels are closed by their worker on every path
that produces a value. -/
def splitOnceRun (sep : List Char) (chunks : List (List Char)) :
    Option (List (List Char) × List (List Char)) :=
  let events := chunks.map WaitEvent.feed ++ [WaitEvent.feedEof]
  match beforeWorker sep ⟨[], false, false⟩ events with
  | none => none
  | some (bouts, st', evs') =>
    match afterWorker sep st' evs' with
    | AfterResult.ok aouts => some (bouts, aouts)
    | _ => none

/-- All ways to cut a string into a sequence of non-empty chunks. -/
def compositions : List Char → List (List (List Char))
  | [] => [[]]
  | c :: rest =>
    (compositions rest).flatMap fun comp =>
      match comp with
      | [] => [[[c]]]
      | chunk :: chunks => [[c] :: chunk :: chunks, (c :: chunk) :: chunks]

/-- Executable check of the `split_once` scenario for one chunking of
`"foo|bar"`: the run completes, *before* receives exactly `"foo"` and
*after* exactly `"bar"`. -/
def checkFooBar (chunks : List (List Char)) : Bool :=
  match splitOnceRun ['|'] chunks with
  | some (b, a) =>
    decide (b.flatten = "foo".toList) && decide (a.flatten = "bar".toList)
  | none => false

end TextStream

namespace RangeSet

/-- A well-formed union of well-formed ranges is well-formed. -/
theorem union2_wf {a b : Range} (ha : a.wf) (hb : b.wf) :
    (Range.union2 a b).wf := by
  unfold Range.wf Range.union2 at *
  dsimp only
  omega

/-- Growing the accumulator by a range that is separated from `r` cannot
create a strict containment of `r` that was not already there. -/
theorem strict_preserved {acc s r : Range} (hacc : acc.wf) (hs : s.wf)
    (hr : r.wf) (hm : mergeCond acc s) (hsep : Range.separated s r)
    (hns : ¬ Range.strictlyContains acc r) :
    ¬ Range.strictlyContains (Range.union2 acc s) r := by
  unfold mergeCond Range.memPos Range.separated Range.strictlyContains
    Range.union2 Range.wf at *
  dsimp only at *
  omega

/-- Growing the accumulator by a range that is separated from `k` keeps the
accumulator separated from `k`. -/
theorem separated_preserved {acc s k : Range} (hacc : acc.wf) (hs : s.wf)
    (hk : k.wf) (hm : mergeCond acc s) (h1 : Range.separated acc k)
    (h2 : Range.separated s k) :
    Range.separated (Range.union2 acc s) k := by
  unfold mergeCond Range.memPos Range.separated Range.union2 Range.wf at *
  dsimp only at *
  omega

/-- If the merge test fails and the accumulator does not strictly contain
`r`, the two ranges are separated. -/
theorem kept_separated {acc r : Range} (hacc : acc.wf) (hr : r.wf)
    (hm : ¬ mergeCond acc r) (hns : ¬ Range.strictlyContains acc r) :
    Range.separated acc r := by
  unfold mergeCond Range.memPos Range.separated Range.strictlyContains
    Range.wf at *
  omega

/-- Main inductive invariant of `add`'s loop: when the existing ranges are
well-formed, pairwise separated, and none is strictly contained in the
accumulator, the loop yields a well-formed accumulator together with kept
ranges that are drawn from the input, pairwise separated, and separated
from the final accumulator; moreover any range separated from the
accumulator and from every input range stays separated from the final
accumulator. -/
theorem addLoop_spec (l : List Range) (acc : Range)
    (hwf : ∀ r ∈ l, r.wf) (hacc : acc.wf)
    (hpw : l.Pairwise Range.separated)
    (hns : ∀ r ∈ l, ¬ Range.strictlyContains acc r) :
    (addLoop acc l).1.wf ∧
    (∀ k ∈ (addLoop acc l).2, k ∈ l) ∧
    (addLoop acc l).2.Pairwise Range.separated ∧
    (∀ k ∈ (addLoop acc l).2, Range.separated (addLoop acc l).1 k) ∧
    (∀ k, k.wf → Range.separated acc k → (∀ s ∈ l, Range.separated s k) →
      Range.separated (addLoop acc l).1 k) := by
  induction l generalizing acc with
  | nil =>
    refine ⟨hacc, ?_, ?_, ?_, ?_⟩
    · simp [addLoop]
    · simp [addLoop]
    · simp [addLoop]
    · exact fun k _ h _ => by simpa [addLoop] using h
  | cons r rs ih =>
    have hrwf : r.wf := hwf r (List.mem_cons_self r rs)
    have hrswf : ∀ x ∈ rs, x.wf := fun x hx => hwf x (List.mem_cons_of_mem r hx)
    have hsep_head : ∀ x ∈ rs, Range.separated r x :=
      (List.pairwise_cons.mp hpw).1
    have hpw' : rs.Pairwise Range.separated := (List.pairwise_cons.mp hpw).2
    by_cases hm : Range.memPos acc.stop r ∨ Range.memPos acc.start r
    · -- merge branch
      have hacc' : (Range.union2 acc r).wf := union2_wf hacc hrwf
      have hns' : ∀ x ∈ rs, ¬ Range.strictlyContains (Range.union2 acc r) x :=
        fun x hx =>
          strict_preserved hacc hrwf (hrswf x hx) hm (hsep_head x hx)
            (hns x (List.mem_cons_of_mem r hx))
      obtain ⟨h1, h2, h3, h4, h5⟩ := ih (Range.union2 acc r) hrswf hacc' hpw' hns'
      have heq : addLoop acc (r :: rs) = addLoop (Range.union2 acc r) rs := by
        simp only [addLoop]
        rw [if_pos hm]
      refine ⟨heq ▸ h1, ?_, heq ▸ h3, heq ▸ h4, ?_⟩
      · intro k hk
        rw [heq] at hk
        exact List.mem_cons_of_mem r (h2 k hk)
      · intro k hkwf hsk hall
        rw [heq]
        exact h5 k hkwf
          (separated_preserved hacc hrwf hkwf hm hsk
            (hall r (List.mem_cons_self r rs)))
          (fun s hs => hall s (List.mem_cons_of_mem r hs))
    · -- keep branch
      have hnsr : ¬ Range.strictlyContains acc r := hns r (List.mem_cons_self r rs)
      have hsepr : Range.separated acc r := kept_separated hacc hrwf hm hnsr
      have hns' : ∀ x ∈ rs, ¬ Range.strictlyContains acc x :=
        fun x hx => hns x (List.mem_cons_of_mem r hx)
      obtain ⟨h1, h2, h3, h4, h5⟩ := ih acc hrswf hacc hpw' hns'
      have heq : addLoop acc (r :: rs) =
          ((addLoop acc rs).1, r :: (addLoop acc rs).2) := by
        simp only [addLoop]
        rw [if_neg hm]
      rw [heq]
      refine ⟨h1, ?_, ?_, ?_, ?_⟩
      · intro k hk
        rcases List.mem_cons.mp hk with h | h
        · exact h ▸ List.mem_cons_self r rs
        · exact List.mem_cons_of_mem r (h2 k h)
      · exact List.pairwise_cons.mpr
          ⟨fun k hk => hsep_head k (h2 k hk), h3⟩
      · intro k hk
        rcases List.mem_cons.mp hk with h | h
        · subst h
          exact h5 k hrwf hsepr
            (fun s hs => Range.separated_symm (hsep_head s hs))
        · exact h4 k h
      · intro k hkwf hsk hall
        exact h5 k hkwf hsk
          (fun s hs => hall s (List.mem_cons_of_mem r hs))

/-- Lemma: `add` unfolded to the components of its loop. -/
theorem add_eq (s : RangeSet) (range : Range) :
    add s range = (addLoop range s).2 ++ [(addLoop range s).1] :=
  rfl

end RangeSet

/-- Claim C1 (counterexample): the claim — `add` merges every existing range
the new range overlaps, including one it strictly contains, preserving the
invariant — is false.  Adding `[0,10)` to the invariant-satisfying set
`{[2,3)}` keeps `[2,3)` as a separate member (neither endpoint of the new
range lies inside it, so the merge test fails) and the result violates the
pairwise non-overlapping invariant. -/
theorem C1_add_strictly_contained_counterexample :
    RangeSet.invariant [({ start := 2, stop := 3 } : Range)] ∧
    (({ start := 0, stop := 10 } : Range)).wf ∧
    (({ start := 2, stop := 3 } : Range)).wf ∧
    Range.strictlyContains { start := 0, stop := 10 } { start := 2, stop := 3 } ∧
    RangeSet.add [{ start := 2, stop := 3 }] { start := 0, stop := 10 } =
      [{ start := 2, stop := 3 }, { start := 0, stop := 10 }] ∧
    ¬ RangeSet.invariant
        (RangeSet.add [{ start := 2, stop := 3 }] { start := 0, stop := 10 }) := by
  decide

/-- Claim C1 (amended): for every Range Set state satisfying the
disjoint/non-touching invariant and every new well-formed range that does
*not* strictly contain any existing range, `add` merges every existing
range that the accumulated new range overlaps or touches, and the invariant
is preserved.  (A strictly contained existing range fails the merge test —
which only checks whether an endpoint of the new range lies inside the
existing one — and survives as a separate, overlapping member; see the
counterexample.) -/
theorem C1_add_preserves_invariant (s : RangeSet) (range : Range)
    (hwf : ∀ r ∈ s, r.wf) (hr : range.wf)
    (hinv : RangeSet.invariant s)
    (hnc : ∀ r ∈ s, ¬ Range.strictlyContains range r) :
    RangeSet.invariant (RangeSet.add s range) := by
  obtain ⟨_, _, h3, h4, _⟩ := RangeSet.addLoop_spec s range hwf hr hinv hnc
  rw [RangeSet.add_eq]
  unfold RangeSet.invariant
  rw [List.pairwise_append]
  refine ⟨h3, List.pairwise_singleton _ _, ?_⟩
  intro k hk a ha
  rw [List.mem_singleton] at ha
  subst ha
  exact Range.separated_symm (h4 k hk)

/-- Claim C1 (witness): a concrete application of the amended theorem. -/
theorem C1_add_preserves_invariant_witness :
    (∀ r ∈ ([{ start := 0, stop := 1 }, { start := 5, stop := 6 }] : RangeSet),
      r.wf) ∧
    (({ start := 2, stop := 3 } : Range)).wf ∧
    RangeSet.invariant [{ start := 0, stop := 1 }, { start := 5, stop := 6 }] ∧
    (∀ r ∈ ([{ start := 0, stop := 1 }, { start := 5, stop := 6 }] : RangeSet),
      ¬ Range.strictlyContains { start := 2, stop := 3 } r) ∧
    RangeSet.invariant
      (RangeSet.add [{ start := 0, stop := 1 }, { start := 5, stop := 6 }]
        { start := 2, stop := 3 }) :=
  ⟨by decide, by decide, by decide, by decide,
    C1_add_preserves_invariant _ _ (by decide) (by decide) (by decide) (by decide)⟩

/-- Claim C2 (code bug): `Helper.on_change` is supposed to rebase the
session's provenance range set via `apply_edit` when a content change does
not match a pending confirmation future, but `apply_edit` is pure and the
source line `self.ranges.apply_edit(c)` discards the returned set, so the
session's ranges are left unchanged.  At the concrete failing input —
ranges `{[0,5)}`, no pending futures, change deleting `[0,1)` (text `""`)
— the callback leaves the ranges equal to the old value while the
claimed rebase result differs. -/
theorem C2_on_change_discards_rebase :
    Helper.onChangeRangesStep [] [{ start := 0, stop := 5 }]
        { range := some { start := 0, stop := 1 }, text := "" } =
      [{ start := 0, stop := 5 }] ∧
    RangeSet.apply_edit [{ start := 0, stop := 5 }]
        { range := some { start := 0, stop := 1 }, text := "" } =
      [{ start := 0, stop := 4 }] ∧
    RangeSet.apply_edit [{ start := 0, stop := 5 }]
        { range := some { start := 0, stop := 1 }, text := "" } ≠
      [{ start := 0, stop := 5 }] := by
  refine ⟨rfl, rfl, ?_⟩
  decide

/-- Claim C5: `apply_edit` is a correct position rebase for an edit replacing
`e` with text of length `n` (`δ = n - e.length`).  Taking the source's
branches in order: a range entirely after the edit (`e.stop ≤ r.start`) is
shifted by `δ`; otherwise a range entirely before the edit
(`r.stop ≤ e.start`) is returned unchanged; otherwise (the range overlaps
the edit) the covered positions of the output are exactly the positions of
`r` strictly before the edit start, together with the positions of `r` at
or after the edit end shifted by `δ` (so that portion starts at the edit's
new end `e.start + n`); the interior overlapping the edit is discarded. -/
theorem C5_apply_edit_rebase (e : Range) (n : Int) (r : Range)
    (hwe : e.wf) (hwr : r.wf) :
    (e.stop ≤ r.start → applyEditRange e n r = [r.shift (n - e.length)]) ∧
    (¬ e.stop ≤ r.start → r.stop ≤ e.start → applyEditRange e n r = [r]) ∧
    (¬ e.stop ≤ r.start → ¬ r.stop ≤ e.start →
      ∀ p : Int,
        (∃ q ∈ applyEditRange e n r, q.covers p) ↔
          ((r.covers p ∧ p < e.start) ∨
            (∃ q, r.covers q ∧ e.stop ≤ q ∧ p = q + (n - e.length)))) := by
  refine ⟨?_, ?_, ?_⟩
  · intro h
    unfold applyEditRange
    rw [if_pos h]
  · intro h1 h2
    unfold applyEditRange
    rw [if_neg h1, if_pos h2]
  · intro h1 h2 p
    unfold applyEditRange
    rw [if_neg h1, if_neg h2]
    unfold Range.wf at hwe hwr
    constructor
    · rintro ⟨q, hq, hcov⟩
      rw [List.mem_append] at hq
      rcases hq with hq | hq
      · by_cases hA : Range.memPos e.start r
        · rw [if_pos hA, List.mem_singleton] at hq
          subst hq
          unfold Range.covers at hcov
          dsimp only at hcov
          unfold Range.memPos at hA
          exact Or.inl ⟨by unfold Range.covers; omega, by omega⟩
        · rw [if_neg hA] at hq
          exact absurd hq (List.not_mem_nil q)
      · by_cases hB : Range.memPos e.stop r
        · rw [if_pos hB, List.mem_singleton] at hq
          subst hq
          unfold Range.covers Range.length at hcov
          dsimp only at hcov
          unfold Range.memPos at hB
          unfold Range.length
          refine Or.inr ⟨p - (n - (e.stop - e.start)), ?_, by omega, by omega⟩
          unfold Range.covers
          omega
        · rw [if_neg hB] at hq
          exact absurd hq (List.not_mem_nil q)
    · rintro (⟨hcov, hlt⟩ | ⟨q, hcov, hge, rfl⟩)
      · unfold Range.covers at hcov
        have hA : Range.memPos e.start r := by
          unfold Range.memPos
          omega
        refine ⟨{ start := r.start, stop := e.start }, ?_, ?_⟩
        · rw [List.mem_append, if_pos hA]
          exact Or.inl (List.mem_singleton_self _)
        · unfold Range.covers
          dsimp only
          omega
      · unfold Range.covers at hcov
        have hB : Range.memPos e.stop r := by
          unfold Range.memPos
          omega
        refine ⟨{ start := e.start + n,
                  stop := r.stop + (n - Range.length e) }, ?_, ?_⟩
        · rw [List.mem_append, if_pos hB]
          exact Or.inr (List.mem_singleton_self _)
        · unfold Range.covers Range.length
          dsimp only
          omega

/-- Claim C5 (witness): the rebase cases at the concrete edit `[2,4)` with
replacement text of length 5 against the range `[0,10)`. -/
theorem C5_apply_edit_rebase_witness :
    (({ start := 2, stop := 4 } : Range)).wf ∧
    (({ start := 0, stop := 10 } : Range)).wf ∧
    ((({ start := 2, stop := 4 } : Range)).stop ≤
        (({ start := 0, stop := 10 } : Range)).start →
      applyEditRange { start := 2, stop := 4 } 5 { start := 0, stop := 10 } =
        [Range.shift { start := 0, stop := 10 }
          (5 - Range.length { start := 2, stop := 4 })]) ∧
    (¬ (({ start := 2, stop := 4 } : Range)).stop ≤
        (({ start := 0, stop := 10 } : Range)).start →
      ¬ (({ start := 0, stop := 10 } : Range)).stop ≤
        (({ start := 2, stop := 4 } : Range)).start →
      ∀ p : Int,
        (∃ q ∈ applyEditRange { start := 2, stop := 4 } 5
            { start := 0, stop := 10 }, q.covers p) ↔
          ((Range.covers { start := 0, stop := 10 } p ∧ p < 2) ∨
            (∃ q, Range.covers { start := 0, stop := 10 } q ∧ 4 ≤ q ∧
              p = q + (5 - Range.length { start := 2, stop := 4 })))) :=
  ⟨by decide, by decide,
    (C5_apply_edit_rebase { start := 2, stop := 4 } 5 { start := 0, stop := 10 }
      (by decide) (by decide)).1,
    (C5_apply_edit_rebase { start := 2, stop := 4 } 5 { start := 0, stop := 10 }
      (by decide) (by decide)).2.2⟩

namespace Helper

/-- As long as no attempt is both applied and confirmed, the retry loop of
`_worker_core` keeps submitting until the budget is exhausted: with `a`
attempts left after `i` submissions it ends unconfirmed after `i + a`
submissions. -/
theorem attemptLoop_never_break (o : Nat → Outcome)
    (h : ∀ j, (o j).applied = false ∨ (o j).confirmed = false) :
    ∀ a i, attemptLoop o a i = (i + a, false) := by
  intro a
  induction a with
  | zero => intro i; simp [attemptLoop]
  | succ a ih =>
    intro i
    have harith : i + 1 + a = i + (a + 1) := by omega
    unfold attemptLoop
    by_cases hap : (o i).applied = false
    · rw [if_pos hap, ih, harith]
    · rw [if_neg hap]
      have hcf : ¬ (o i).confirmed = true := by
        rcases h i with hh | hh
        · exact absurd hh hap
        · simp [hh]
      rw [if_neg hcf, ih, harith]

end Helper

/-- Claim C3 (counterexample): the claim — exhausting the attempt budget for
one delta drops only that delta and the session continues with the next
delta — is false.  With a first delta whose submissions are never applied
and a second delta that would succeed immediately, `_worker_core` returns
after the first delta's budget is exhausted and the second delta is never
processed. -/
theorem C3_exhausted_attempts_counterexample :
    Helper.runDeltas
        [("a", fun _ => { applied := false, confirmed := false }),
         ("b", fun _ => { applied := true, confirmed := true })] =
      { confirmed := [], submissions := 10, droppedAt := some "a" } ∧
    "b" ∉ (Helper.runDeltas
        [("a", fun _ => { applied := false, confirmed := false }),
         ("b", fun _ => { applied := true, confirmed := true })]).confirmed := by
  decide

/-- Claim C3 (amended): when every submission of a delta is reported not
applied, the bounded budget of 10 attempts is exhausted and `_worker_core`
*returns*: the failing delta is recorded as dropped, no delta of the run is
confirmed, and every subsequent delta is abandoned (the result does not
depend on `rest`); the worker raises no exception, so the session still
completes, with status `done`. -/
theorem C3_exhausted_attempts_end_worker (d : String)
    (o : Nat → Helper.Outcome)
    (rest : List (String × (Nat → Helper.Outcome)))
    (h : ∀ j, (o j).applied = false) :
    Helper.runDeltas ((d, o) :: rest) =
      { confirmed := [], submissions := 10, droppedAt := some d } ∧
    (Helper.worker ((d, o) :: rest)).1 = Helper.Status.done := by
  have h10 : Helper.attemptLoop o 10 0 = (10, false) :=
    Helper.attemptLoop_never_break o (fun j => Or.inl (h j)) 10 0
  refine ⟨?_, rfl⟩
  unfold Helper.runDeltas
  rw [h10]
  simp

/-- Claim C3 (witness): the amended theorem at a concrete two-delta run. -/
theorem C3_exhausted_attempts_end_worker_witness :
    (∀ j : Nat,
      ((fun _ : Nat => ({ applied := false, confirmed := false } : Helper.Outcome)) j).applied
        = false) ∧
    (Helper.runDeltas
        [("a", fun _ => { applied := false, confirmed := false }),
         ("b", fun _ => { applied := true, confirmed := true })] =
      { confirmed := [], submissions := 10, droppedAt := some "a" } ∧
    (Helper.worker
        [("a", fun _ => { applied := false, confirmed := false }),
         ("b", fun _ => { applied := true, confirmed := true })]).1 =
      Helper.Status.done) :=
  ⟨fun _ => rfl,
    C3_exhausted_attempts_end_worker "a" _
      [("b", fun _ => { applied := true, confirmed := true })] (fun _ => rfl)⟩

/-- Claim C4 (counterexample): the claim — on a confirmation timeout the
session treats the unconfirmed edit as handled, does not re-submit it, and
moves on — is false.  For a delta whose submissions are always applied but
never confirmed in time, the code re-submits after every timeout: 10
submissions are made (not 1), and the delta is never treated as handled —
the budget is exhausted and the worker returns with the delta dropped. -/
theorem C4_timeout_retry_counterexample :
    Helper.runDeltas [("x", fun _ => { applied := true, confirmed := false })] =
      { confirmed := [], submissions := 10, droppedAt := some "x" } ∧
    (Helper.runDeltas
        [("x", fun _ => { applied := true, confirmed := false })]).submissions ≠ 1 ∧
    (Helper.runDeltas
        [("x", fun _ => { applied := true, confirmed := false })]).droppedAt ≠
      none := by
  decide

/-- Claim C4 (amended): when the bounded 2-time-unit wait for the confirming
change notification times out, `_worker_core` deletes the pending future,
logs, and *retries the edit* — the loop re-submits, consuming another
attempt; it never rolls back.  A delta that is always applied but never
confirmed is therefore submitted once per attempt until the 10-attempt
budget is exhausted, after which the worker returns with the delta dropped
and unconfirmed. -/
theorem C4_timeout_causes_retry (d : String) (o : Nat → Helper.Outcome)
    (rest : List (String × (Nat → Helper.Outcome)))
    (h : ∀ j, (o j).applied = true ∧ (o j).confirmed = false) :
    Helper.attemptLoop o 10 0 = (10, false) ∧
    Helper.runDeltas ((d, o) :: rest) =
      { confirmed := [], submissions := 10, droppedAt := some d } := by
  have h10 : Helper.attemptLoop o 10 0 = (10, false) :=
    Helper.attemptLoop_never_break o (fun j => Or.inr (h j).2) 10 0
  refine ⟨h10, ?_⟩
  unfold Helper.runDeltas
  rw [h10]
  simp

/-- Claim C4 (witness): the amended theorem at a concrete run. -/
theorem C4_timeout_causes_retry_witness :
    (∀ j : Nat,
      ((fun _ : Nat => ({ applied := true, confirmed := false } : Helper.Outcome)) j).applied
          = true ∧
      ((fun _ : Nat => ({ applied := true, confirmed := false } : Helper.Outcome)) j).confirmed
          = false) ∧
    (Helper.attemptLoop (fun _ => { applied := true, confirmed := false }) 10 0 =
      (10, false) ∧
    Helper.runDeltas [("x", fun _ => { applied := true, confirmed := false })] =
      { confirmed := [], submissions := 10, droppedAt := some "x" }) :=
  ⟨fun _ => ⟨rfl, rfl⟩,
    C4_timeout_causes_retry "x" _ [] (fun _ => ⟨rfl, rfl⟩)⟩

/-- Claim C6 (counterexample): the claim — errors in notification handler
tasks are only logged and never answered — is false.  A notification (no
id) for an unregistered method raises `method_not_found`, a
`ResponseError`, and `_on_request`'s `except ResponseError` branch sends
`Response(id=req.id, error=e)` without testing `is_notification`, so an
error Response with a null id goes to the peer. -/
theorem C6_notification_error_response_counterexample :
    Rpc.handleMessage
        { status := Rpc.RpcServerStatus.running,
          initMode := Rpc.InitializationMode.NoInit,
          methods := [], theirRequests := [], myRequests := [] }
        (fun _ => Rpc.HandlerB.ok) (fun _ => true)
        { method := "nope", id := none, cancelParams := none } =
      Rpc.HandleResult.handled
        (some (Rpc.ResponseMsg.errorMsg none Rpc.ErrorCode.method_not_found))
        { status := Rpc.RpcServerStatus.running,
          initMode := Rpc.InitializationMode.NoInit,
          methods := [], theirRequests := [], myRequests := [] } := by
  decide

/-- Claim C6 (amended): for an inbound notification processed by a running
engine, a handler-task error is *not* suppressed: an unknown method, a
params-decode failure, a handler `ResponseError`, and any other handler
exception each cause an error Response with `id = null` to be sent to the
peer (`server_error` for the generic exception); only cancellation and
normal completion send nothing for a notification. -/
theorem C6_notification_errors_are_responded (sv : Rpc.Server)
    (hb : String → Rpc.HandlerB) (dec : String → Bool) (req : Rpc.Request)
    (hnotif : req.id = none)
    (hrun : sv.status = Rpc.RpcServerStatus.running)
    (hm1 : req.method ≠ "exit") (hm2 : req.method ≠ "shutdown")
    (hm3 : req.method ≠ "$/cancelRequest") :
    (req.method ∉ sv.methods →
      Rpc.handleMessage sv hb dec req =
        Rpc.HandleResult.handled
          (some (Rpc.ResponseMsg.errorMsg none Rpc.ErrorCode.method_not_found))
          sv) ∧
    (req.method ∈ sv.methods → dec req.method = false →
      Rpc.handleMessage sv hb dec req =
        Rpc.HandleResult.handled
          (some (Rpc.ResponseMsg.errorMsg none Rpc.ErrorCode.invalid_params))
          sv) ∧
    (∀ ec, req.method ∈ sv.methods → dec req.method = true →
      hb req.method = Rpc.HandlerB.raiseResp ec →
      Rpc.handleMessage sv hb dec req =
        Rpc.HandleResult.handled
          (some (Rpc.ResponseMsg.errorMsg none ec)) sv) ∧
    (req.method ∈ sv.methods → dec req.method = true →
      hb req.method = Rpc.HandlerB.raiseOther →
      Rpc.handleMessage sv hb dec req =
        Rpc.HandleResult.handled
          (some (Rpc.ResponseMsg.errorMsg none Rpc.ErrorCode.server_error))
          sv) ∧
    (req.method ∈ sv.methods → dec req.method = true →
      hb req.method = Rpc.HandlerB.cancelled →
      Rpc.handleMessage sv hb dec req = Rpc.HandleResult.handled none sv) ∧
    (req.method ∈ sv.methods → dec req.method = true →
      hb req.method = Rpc.HandlerB.ok →
      Rpc.handleMessage sv hb dec req = Rpc.HandleResult.handled none sv) := by
  have hpre : ¬ sv.status = Rpc.RpcServerStatus.preinit := by
    rw [hrun]; decide
  have hshut : ¬ sv.status = Rpc.RpcServerStatus.shutdown := by
    rw [hrun]; decide
  refine ⟨?_, ?_, ?_, ?_, ?_, ?_⟩
  · intro hmem
    simp [Rpc.handleMessage, Rpc.onRequest, Rpc.onRequestCore, hm1, hm2, hm3,
      hnotif, hpre, hshut, hmem]
  · intro hmem hdec
    simp [Rpc.handleMessage, Rpc.onRequest, Rpc.onRequestCore, hm1, hm2, hm3,
      hnotif, hpre, hshut, hmem, hdec]
  · intro ec hmem hdec hhb
    simp [Rpc.handleMessage, Rpc.onRequest, Rpc.onRequestCore, hm1, hm2, hm3,
      hnotif, hpre, hshut, hmem, hdec, hhb]
  · intro hmem hdec hhb
    simp [Rpc.handleMessage, Rpc.onRequest, Rpc.onRequestCore, hm1, hm2, hm3,
      hnotif, hpre, hshut, hmem, hdec, hhb]
  · intro hmem hdec hhb
    simp [Rpc.handleMessage, Rpc.onRequest, Rpc.onRequestCore, hm1, hm2, hm3,
      hnotif, hpre, hshut, hmem, hdec, hhb]
  · intro hmem hdec hhb
    simp [Rpc.handleMessage, Rpc.onRequest, Rpc.onRequestCore, hm1, hm2, hm3,
      hnotif, hpre, hshut, hmem, hdec, hhb]

/-- Claim C6 (witness): the amended theorem applied to a concrete running
server and the notification of a method whose handler raises a generic
exception. -/
theorem C6_notification_errors_are_responded_witness :
    ((({ method := "m", id := none, cancelParams := none } : Rpc.Request)).id
        = none) ∧
    (({ status := Rpc.RpcServerStatus.running,
        initMode := Rpc.InitializationMode.NoInit,
        methods := ["m"], theirRequests := [], myRequests := [] }
          : Rpc.Server)).status = Rpc.RpcServerStatus.running ∧
    ("m" : String) ∈ ["m"] ∧
    Rpc.handleMessage
        { status := Rpc.RpcServerStatus.running,
          initMode := Rpc.InitializationMode.NoInit,
          methods := ["m"], theirRequests := [], myRequests := [] }
        (fun _ => Rpc.HandlerB.raiseOther) (fun _ => true)
        { method := "m", id := none, cancelParams := none } =
      Rpc.HandleResult.handled
        (some (Rpc.ResponseMsg.errorMsg none Rpc.ErrorCode.server_error))
        { status := Rpc.RpcServerStatus.running,
          initMode := Rpc.InitializationMode.NoInit,
          methods := ["m"], theirRequests := [], myRequests := [] } :=
  ⟨rfl, rfl, by decide,
    (C6_notification_errors_are_responded _ _ _ _ rfl rfl (by decide) (by decide)
        (by decide)).2.2.2.1 (by decide) rfl rfl⟩

/-- Claim C7 (counterexample): the claim — while `preinit` in `ExpectInit`
mode every non-`initialize` request, including `shutdown`, is rejected with
`server_not_initialized` and the status stays `preinit` — is false for
`shutdown`: `_handle_message` calls `_shutdown()` *before* the handler task
runs, so `_on_request_core` sees status `shutdown`, takes the shutdown
path, and answers with a normal result; the status ends up `shutdown`, not
`preinit`. -/
theorem C7_shutdown_bypasses_preinit_counterexample :
    Rpc.handleMessage
        { status := Rpc.RpcServerStatus.preinit,
          initMode := Rpc.InitializationMode.ExpectInit,
          methods := ["initialize", "shutdown"], theirRequests := [],
          myRequests := [] }
        (fun _ => Rpc.HandlerB.ok) (fun _ => true)
        { method := "shutdown", id := some 1, cancelParams := none } =
      Rpc.HandleResult.handled (some (Rpc.ResponseMsg.resultMsg (some 1)))
        { status := Rpc.RpcServerStatus.shutdown,
          initMode := Rpc.InitializationMode.ExpectInit,
          methods := ["initialize", "shutdown"], theirRequests := [],
          myRequests := [] } := by
  decide

/-- Claim C7 (amended): in `ExpectInit` mode while `preinit`, every inbound
request with a fresh id whose method is none of `initialize`, `shutdown`
and `exit` is rejected with a `server_not_initialized` (-32002) error and
the status stays `preinit`; an `initialize` request transitions the status
to `running`; a `shutdown` request is *not* rejected — `_handle_message`
shuts the engine down before the handler task runs, and the request is
answered with a normal result, the status ending `shutdown`. -/
theorem C7_preinit_request_gate (sv : Rpc.Server)
    (hb : String → Rpc.HandlerB) (dec : String → Bool) (req : Rpc.Request)
    (i : Nat) (hpre : sv.status = Rpc.RpcServerStatus.preinit)
    (hmode : sv.initMode = Rpc.InitializationMode.ExpectInit)
    (hid : req.id = some i) (hfresh : i ∉ sv.theirRequests) :
    (req.method ≠ "initialize" → req.method ≠ "shutdown" → req.method ≠ "exit" →
      Rpc.handleMessage sv hb dec req =
        Rpc.HandleResult.handled
          (some (Rpc.ResponseMsg.errorMsg (some i)
            Rpc.ErrorCode.server_not_initialized)) sv) ∧
    (req.method = "initialize" →
      ∃ sent, Rpc.handleMessage sv hb dec req =
        Rpc.HandleResult.handled sent
          { sv with status := Rpc.RpcServerStatus.running }) ∧
    (req.method = "shutdown" → hb "shutdown" = Rpc.HandlerB.ok →
      Rpc.handleMessage sv hb dec req =
        Rpc.HandleResult.handled (some (Rpc.ResponseMsg.resultMsg (some i)))
          { sv with status := Rpc.RpcServerStatus.shutdown }) := by
  refine ⟨?_, ?_, ?_⟩
  · intro hni hns hne
    simp only [Rpc.handleMessage, Rpc.onRequest, Rpc.onRequestCore, hid,
      if_neg hne, if_neg hns, ite_false]
    simp [hpre, hmode, hfresh, hni]
  · intro hinit
    have hne : req.method ≠ "exit" := by rw [hinit]; decide
    have hns : req.method ≠ "shutdown" := by rw [hinit]; decide
    simp only [Rpc.handleMessage, Rpc.onRequest, Rpc.onRequestCore, hid,
      if_neg hne, if_neg hns, ite_false, hinit]
    by_cases hmem : "initialize" ∈ sv.methods
    · rcases Bool.dichotomy (dec "initialize") with hdec | hdec
      · exact ⟨some (Rpc.ResponseMsg.errorMsg (some i) Rpc.ErrorCode.invalid_params),
          by simp [hpre, hmode, hfresh, hmem, hdec]⟩
      · cases hhb : hb "initialize" with
        | ok =>
          exact ⟨some (Rpc.ResponseMsg.resultMsg (some i)),
            by simp [hpre, hmode, hfresh, hmem, hdec, hhb]⟩
        | raiseResp e =>
          exact ⟨some (Rpc.ResponseMsg.errorMsg (some i) e),
            by simp [hpre, hmode, hfresh, hmem, hdec, hhb]⟩
        | raiseOther =>
          exact ⟨some (Rpc.ResponseMsg.errorMsg (some i) Rpc.ErrorCode.server_error),
            by simp [hpre, hmode, hfresh, hmem, hdec, hhb]⟩
        | cancelled =>
          exact ⟨some (Rpc.ResponseMsg.errorMsg (some i) Rpc.ErrorCode.request_cancelled),
            by simp [hpre, hmode, hfresh, hmem, hdec, hhb]⟩
    · exact ⟨some (Rpc.ResponseMsg.errorMsg (some i) Rpc.ErrorCode.method_not_found),
        by simp [hpre, hmode, hfresh, hmem]⟩
  · intro hsd hhb
    have hne : req.method ≠ "exit" := by rw [hsd]; decide
    simp only [Rpc.handleMessage, Rpc.onRequest, Rpc.onRequestCore, hid,
      if_neg hne, hsd, if_pos rfl]
    simp [Rpc.shutdownServer, hfresh, hhb]

/-- Claim C7 (witness): the amended theorem at a concrete pre-initialization
server receiving an ordinary request. -/
theorem C7_preinit_request_gate_witness :
    (({ status := Rpc.RpcServerStatus.preinit,
        initMode := Rpc.InitializationMode.ExpectInit,
        methods := ["initialize"], theirRequests := [], myRequests := [] }
          : Rpc.Server)).status = Rpc.RpcServerStatus.preinit ∧
    ((({ method := "foo", id := some 7, cancelParams := none }
          : Rpc.Request)).id = some 7) ∧
    Rpc.handleMessage
        { status := Rpc.RpcServerStatus.preinit,
          initMode := Rpc.InitializationMode.ExpectInit,
          methods := ["initialize"], theirRequests := [], myRequests := [] }
        (fun _ => Rpc.HandlerB.ok) (fun _ => true)
        { method := "foo", id := some 7, cancelParams := none } =
      Rpc.HandleResult.handled
        (some (Rpc.ResponseMsg.errorMsg (some 7)
          Rpc.ErrorCode.server_not_initialized))
        { status := Rpc.RpcServerStatus.preinit,
          initMode := Rpc.InitializationMode.ExpectInit,
          methods := ["initialize"], theirRequests := [], myRequests := [] } :=
  ⟨rfl, rfl,
    (C7_preinit_request_gate _ _ _ _ 7 rfl rfl rfl (by decide)).1
      (by decide) (by decide) (by decide)⟩

/-- Claim C10: a request whose id is already in use by an in-flight inbound
handler task is fatal to the connection: `_handle_message` raises the
`invalid_request` `ResponseError` without sending any Response for it, the
serve loop's `except` chain matches it only in the final generic branch,
which logs and re-raises so the loop exits, and the `finally` block fails
every still-pending outbound request future. -/
theorem C10_duplicate_inbound_id_fatal (sv : Rpc.Server)
    (hb : String → Rpc.HandlerB) (dec : String → Bool) (req : Rpc.Request)
    (i : Nat) (hid : req.id = some i) (hdup : i ∈ sv.theirRequests)
    (hexit : req.method ≠ "exit") :
    Rpc.handleMessage sv hb dec req = Rpc.HandleResult.raisedInvalidRequest ∧
    Rpc.serveClassify (Rpc.LoopExc.responseError Rpc.ErrorCode.invalid_request) =
      Rpc.LoopAction.reraise ∧
    Rpc.serveFinalize sv = sv.myRequests := by
  refine ⟨?_, rfl, rfl⟩
  simp only [Rpc.handleMessage, hid, if_neg hexit]
  by_cases hsd : req.method = "shutdown" <;>
    simp [hsd, Rpc.shutdownServer, hdup]

/-- Claim C10 (witness): the theorem at a concrete server with an in-flight
inbound request id 5 and a peer request reusing id 5. -/
theorem C10_duplicate_inbound_id_fatal_witness :
    ((({ method := "foo", id := some 5, cancelParams := none }
          : Rpc.Request)).id = some 5) ∧
    (5 : Nat) ∈ [5] ∧
    Rpc.handleMessage
        { status := Rpc.RpcServerStatus.running,
          initMode := Rpc.InitializationMode.NoInit,
          methods := ["foo"], theirRequests := [5], myRequests := [41, 42] }
        (fun _ => Rpc.HandlerB.ok) (fun _ => true)
        { method := "foo", id := some 5, cancelParams := none } =
      Rpc.HandleResult.raisedInvalidRequest ∧
    Rpc.serveFinalize
        { status := Rpc.RpcServerStatus.running,
          initMode := Rpc.InitializationMode.NoInit,
          methods := ["foo"], theirRequests := [5], myRequests := [41, 42] } =
      [41, 42] :=
  ⟨rfl, by decide,
    (C10_duplicate_inbound_id_fatal _ _ _ _ 5 rfl (by decide) (by decide)).1,
    (C10_duplicate_inbound_id_fatal
        { status := Rpc.RpcServerStatus.running,
          initMode := Rpc.InitializationMode.NoInit,
          methods := ["foo"], theirRequests := [5], myRequests := [41, 42] }
        (fun _ => Rpc.HandlerB.ok) (fun _ => true)
        { method := "foo", id := some 5, cancelParams := none }
        5 rfl (by decide) (by decide)).2.2⟩

namespace TextStream

/-- Lemma: the wait loop of `read(-1)` propagates a cancellation without invoking the
registered callback. -/
theorem readNegLoop_cancel (evs : List WaitEvent) :
    ∀ (st : TS) (b : Bool),
      readNegLoop st evs = ReadResult.cancelled b → b = false := by
  induction evs with
  | nil =>
    intro st b h
    unfold readNegLoop at h
    split at h <;> simp_all
  | cons e rest ih =>
    intro st b h
    unfold readNegLoop at h
    split at h
    · simp_all
    · cases e with
      | cancelOp => simp_all
      | feed s => exact ih _ b h
      | feedEof => exact ih _ b h

/-- Lemma: the wait loop of `readexactly` propagates a cancellation without invoking the
registered callback. -/
theorem readexactlyLoop_cancel (n : Int) (evs : List WaitEvent) :
    ∀ (st : TS) (b : Bool),
      readexactlyLoop n st evs = ReadResult.cancelled b → b = false := by
  induction evs with
  | nil =>
    intro st b h
    unfold readexactlyLoop at h
    split at h
    · simp_all
    · split at h <;> simp_all
  | cons e rest ih =>
    intro st b h
    unfold readexactlyLoop at h
    split at h
    · cases e with
      | cancelOp => simp_all
      | feed s => exact ih _ b h
      | feedEof => exact ih _ b h
    · split at h <;> simp_all

/-- Lemma: the search loop of `readuntil` propagates a cancellation without invoking the
registered callback. -/
theorem readuntilLoop_cancel (sep : List Char) (evs : List WaitEvent) :
    ∀ (st : TS) (b : Bool),
      readuntilLoop sep st evs = ReadResult.cancelled b → b = false := by
  induction evs with
  | nil =>
    intro st b h
    unfold readuntilLoop at h
    split at h
    · simp_all
    · split at h <;> simp_all
  | cons e rest ih =>
    intro st b h
    unfold readuntilLoop at h
    split at h
    · simp_all
    · split at h
      · simp_all
      · cases e with
        | cancelOp => simp_all
        | feed s => exact ih _ b h
        | feedEof => exact ih _ b h

end TextStream

/-- Claim C8 (counterexample): the claim — cancelling any outstanding read
operation (`read`, `readexactly`, `readuntil` or async iteration) on a
channel with a registered `on_cancel` callback invokes the callback — is
false: only `__anext__` wraps its await in `try/except CancelledError`.
Cancelling a `readexactly(5)` suspended on an empty, open channel with the
callback registered propagates the cancellation without invoking it. -/
theorem C8_readexactly_cancel_no_callback_counterexample :
    TextStream.readexactly
        { buffer := [], eof := false, onCancelRegistered := true }
        [TextStream.WaitEvent.cancelOp] 5 =
      TextStream.ReadResult.cancelled false := by
  decide

/-- Claim C8 (amended): only async iteration (`__anext__`) invokes the
registered `on_cancel` callback when cancelled while suspended waiting for
data; a cancellation of `read(n)`, `readexactly(n)` or
`readuntil(separator)` propagates without the callback ever being
invoked. -/
theorem C8_only_anext_invokes_on_cancel :
    (∀ (st : TextStream.TS) (evs : List TextStream.WaitEvent) (n : Int)
        (b : Bool),
      TextStream.read st evs n = TextStream.ReadResult.cancelled b →
        b = false) ∧
    (∀ (st : TextStream.TS) (evs : List TextStream.WaitEvent) (n : Int)
        (b : Bool),
      TextStream.readexactly st evs n = TextStream.ReadResult.cancelled b →
        b = false) ∧
    (∀ (st : TextStream.TS) (evs : List TextStream.WaitEvent)
        (sep : List Char) (b : Bool),
      TextStream.readuntil st evs sep = TextStream.ReadResult.cancelled b →
        b = false) ∧
    (∀ (st : TextStream.TS) (evs : List TextStream.WaitEvent),
      st.buffer = [] → st.eof = false → st.onCancelRegistered = true →
      TextStream.anext st (TextStream.WaitEvent.cancelOp :: evs) =
        TextStream.ReadResult.cancelled true) := by
  refine ⟨?_, ?_, ?_, ?_⟩
  · intro st evs n b h
    unfold TextStream.read at h
    split at h
    · simp_all
    · split at h
      · exact TextStream.readNegLoop_cancel evs st b h
      · split at h
        · cases evs with
          | nil => simp_all
          | cons e rest =>
            cases e with
            | cancelOp => simp_all
            | feed s => simp_all
            | feedEof => simp_all
        · simp_all
  · intro st evs n b h
    unfold TextStream.readexactly at h
    split at h
    · simp_all
    · split at h
      · simp_all
      · exact TextStream.readexactlyLoop_cancel n evs st b h
  · intro st evs sep b h
    unfold TextStream.readuntil at h
    split at h
    · simp_all
    · exact TextStream.readuntilLoop_cancel sep evs st b h
  · intro st evs hbuf heof hreg
    unfold TextStream.anext
    simp [hbuf, heof, hreg]

/-- Claim C8 (witness): the amended theorem at concrete cancelled reads on an
empty, open channel with the callback registered. -/
theorem C8_only_anext_invokes_on_cancel_witness :
    (TextStream.read { buffer := [], eof := false, onCancelRegistered := true }
        [TextStream.WaitEvent.cancelOp] 5 =
      TextStream.ReadResult.cancelled false ∧ (false = false)) ∧
    (TextStream.readexactly
        { buffer := [], eof := false, onCancelRegistered := true }
        [TextStream.WaitEvent.cancelOp] 3 =
      TextStream.ReadResult.cancelled false ∧ (false = false)) ∧
    (TextStream.readuntil
        { buffer := [], eof := false, onCancelRegistered := true }
        [TextStream.WaitEvent.cancelOp] ['|'] =
      TextStream.ReadResult.cancelled false ∧ (false = false)) ∧
    (([] : List Char) = [] ∧ (false : Bool) = false ∧ (true : Bool) = true ∧
      TextStream.anext
          { buffer := [], eof := false, onCancelRegistered := true }
          [TextStream.WaitEvent.cancelOp] =
        TextStream.ReadResult.cancelled true) :=
  ⟨⟨by decide, C8_only_anext_invokes_on_cancel.1
      { buffer := [], eof := false, onCancelRegistered := true }
      [TextStream.WaitEvent.cancelOp] 5 false (by decide)⟩,
    ⟨by decide, C8_only_anext_invokes_on_cancel.2.1
      { buffer := [], eof := false, onCancelRegistered := true }
      [TextStream.WaitEvent.cancelOp] 3 false (by decide)⟩,
    ⟨by decide, C8_only_anext_invokes_on_cancel.2.2.1
      { buffer := [], eof := false, onCancelRegistered := true }
      [TextStream.WaitEvent.cancelOp] ['|'] false (by decide)⟩,
    ⟨rfl, rfl, rfl, C8_only_anext_invokes_on_cancel.2.2.2
      { buffer := [], eof := false, onCancelRegistered := true }
      [] rfl rfl rfl⟩⟩

namespace TextStream

/-- Prepending a non-empty chunk to a composition of the remainder yields a
composition of the concatenation. -/
theorem cons_mem_compositions :
    ∀ (c : List Char), c ≠ [] → ∀ (cs : List (List Char)) (rest : List Char),
      cs ∈ compositions rest → (c :: cs) ∈ compositions (c ++ rest) := by
  intro c
  induction c with
  | nil => intro h; exact absurd rfl h
  | cons a c' ih =>
    intro _ cs rest hcs
    by_cases hc' : c' = []
    · subst hc'
      simp only [List.cons_append, List.nil_append]
      unfold compositions
      rw [List.mem_flatMap]
      refine ⟨cs, hcs, ?_⟩
      cases cs with
      | nil => simp
      | cons chunk chunks => simp
    · have hmem : (c' :: cs) ∈ compositions (c' ++ rest) := ih hc' cs rest hcs
      simp only [List.cons_append]
      unfold compositions
      rw [List.mem_flatMap]
      exact ⟨c' :: cs, hmem, by simp⟩

/-- Completeness of `compositions`: every cut of `l` into non-empty chunks
is listed. -/
theorem mem_compositions (chunks : List (List Char)) :
    ∀ (l : List Char), chunks.flatten = l → (∀ c ∈ chunks, c ≠ []) →
      chunks ∈ compositions l := by
  induction chunks with
  | nil =>
    intro l hj _
    rw [← hj]
    simp [compositions]
  | cons c cs ih =>
    intro l hj hne
    have hc : c ≠ [] := hne c (List.mem_cons_self c cs)
    have hcs : cs ∈ compositions cs.flatten :=
      ih cs.flatten rfl (fun x hx => hne x (List.mem_cons_of_mem c hx))
    have h := cons_mem_compositions c hc cs cs.flatten hcs
    rw [← hj, List.flatten_cons]
    exact h

end TextStream

/-- Claim C9: feeding `"foo|bar"` into a source channel in any chunking and
then closing it, `split_once("|")` forwards exactly `"foo"` to the *before*
channel (which its worker then closes), consumes the separator, and
forwards exactly `"bar"` to the *after* channel (closed at source eof); the
separator appears in neither output. -/
theorem C9_split_once_foo_bar (chunks : List (List Char))
    (hne : ∀ c ∈ chunks, c ≠ [])
    (hjoin : chunks.flatten = "foo|bar".toList) :
    ∃ bouts aouts,
      TextStream.splitOnceRun ['|'] chunks = some (bouts, aouts) ∧
      bouts.flatten = "foo".toList ∧
      aouts.flatten = "bar".toList ∧
      '|' ∉ bouts.flatten ∧ '|' ∉ aouts.flatten := by
  have hmem : chunks ∈ TextStream.compositions ("foo|bar".toList) :=
    TextStream.mem_compositions chunks _ hjoin hne
  have hall : ∀ cs ∈ TextStream.compositions ("foo|bar".toList),
      TextStream.checkFooBar cs = true := by decide
  have hchk := hall chunks hmem
  unfold TextStream.checkFooBar at hchk
  rcases hsor : TextStream.splitOnceRun ['|'] chunks with _ | ⟨b, a⟩
  · rw [hsor] at hchk
    simp at hchk
  · rw [hsor] at hchk
    simp only [Bool.and_eq_true, decide_eq_true_eq] at hchk
    refine ⟨b, a, rfl, hchk.1, hchk.2, ?_, ?_⟩
    · rw [hchk.1]; decide
    · rw [hchk.2]; decide

/-- Claim C9 (witness): the theorem at the chunking `["foo|", "bar"]`. -/
theorem C9_split_once_foo_bar_witness :
    (∀ c ∈ [("foo|".toList), ("bar".toList)], c ≠ []) ∧
    ([("foo|".toList), ("bar".toList)]).flatten = "foo|bar".toList ∧
    ∃ bouts aouts,
      TextStream.splitOnceRun ['|'] [("foo|".toList), ("bar".toList)] =
        some (bouts, aouts) ∧
      bouts.flatten = "foo".toList ∧
      aouts.flatten = "bar".toList ∧
      '|' ∉ bouts.flatten ∧ '|' ∉ aouts.flatten :=
  ⟨by decide, by decide,
    C9_split_once_foo_bar [("foo|".toList), ("bar".toList)] (by decide)
      (by decide)⟩

end Rift
